import Mathlib

/-!
Verification of the otom-ai repository's core subsystems against its
specification: the per-user sliding-window rate limiter (package `bot`,
`RateLimiter.Allow`) and the two-phase tool-calling completion
orchestrator (package `ai`, `Client.Complete`), together with the HTTP
error classification (`APIError.UserMessage`).

Time is modelled as `Int` (nanoseconds, as in Go's `time.Time`/
`time.Duration`); the `map[string][]time.Time` is modelled as a total
function `String → List Int` defaulting to `[]` (a missing key in a Go
map yields the nil slice).
-/

namespace OtomAI

/-! ## The sliding-window rate limiter (bot package)

Embedding of the Go `RateLimiter` struct and its `Allow` method.
`Allow` takes the current clock reading `now` explicitly (Go reads
`time.Now()` inside the critical section).  The mutex makes each call
one atomic step, so a concurrent execution is a sequence of `Allow`
steps; `runAllows` below folds such a sequence.

`Allow` returns `none` exactly where the Go code would panic with an
index-out-of-range on `valid[0]` (only reachable when `limit ≤ 0`). -/

structure RateLimiter where
  limit : Int
  window : Int
  requests : String → List Int

/-- Go `NewRateLimiter`: empty request map. -/
def NewRateLimiter (limit : Int) (window : Int) : RateLimiter :=
  { limit := limit, window := window, requests := fun _ => [] }

/-- Go `(*RateLimiter).Allow`: prune timestamps not strictly after
`now - window` (Go `ts.After(cutoff)`), then admit and record `now`
when the remaining count is below the limit, else deny with
`retryAfter = valid[0] + window - now`. -/
def RateLimiter.Allow (rl : RateLimiter) (userID : String) (now : Int) :
    Option ((Bool × Int) × RateLimiter) :=
  let cutoff := now - rl.window
  let timestamps := rl.requests userID
  let valid := timestamps.filter (fun ts => cutoff < ts)
  if rl.limit ≤ (valid.length : Int) then
    match valid with
    | [] => none
    | oldest :: _ =>
      some ((false, oldest + rl.window - now),
        { rl with requests := fun k => if k = userID then valid else rl.requests k })
  else
    some ((true, 0),
      { rl with requests := fun k => if k = userID then valid ++ [now] else rl.requests k })

/-- A sequence of `Allow` calls for one key at the given clock readings
(the limiter's mutex serializes concurrent calls into such a sequence).
Returns the list of admission decisions and the final limiter state;
`none` if any call hits the Go panic case. -/
def runAllows (key : String) : RateLimiter → List Int → Option (List Bool × RateLimiter)
  | rl, [] => some ([], rl)
  | rl, t :: ts =>
    match rl.Allow key t with
    | none => none
    | some ((ok, _), rl') =>
      match runAllows key rl' ts with
      | none => none
      | some (results, rlF) => some (ok :: results, rlF)

/-- The admission branch of `Allow`, as an equation. -/
theorem Allow_admit_eq (rl : RateLimiter) (key : String) (now : Int)
    (h : ¬ rl.limit ≤ (((rl.requests key).filter (fun ts => now - rl.window < ts)).length : Int)) :
    rl.Allow key now = some ((true, 0),
      { rl with requests := fun k => if k = key then
          (rl.requests key).filter (fun ts => now - rl.window < ts) ++ [now]
        else rl.requests k }) := by
  simp only [RateLimiter.Allow]
  rw [if_neg h]

/-- The denial branch of `Allow`, as an equation. -/
theorem Allow_deny_eq (rl : RateLimiter) (key : String) (now : Int)
    (oldest : Int) (rest : List Int)
    (hv : (rl.requests key).filter (fun ts => now - rl.window < ts) = oldest :: rest)
    (h : rl.limit ≤ ((oldest :: rest).length : Int)) :
    rl.Allow key now = some ((false, oldest + rl.window - now),
      { rl with requests := fun k => if k = key then oldest :: rest else rl.requests k }) := by
  simp only [RateLimiter.Allow, hv]
  rw [if_pos h]

/-- C1: `Allow(key)` first drops all recorded timestamps at or before
`now - window`; if the remaining count is strictly below the limit it
records `now` and returns `(true, 0)`, otherwise it records nothing new
and returns `(false, oldest_remaining + window - now)`. -/
theorem Allow_spec (rl : RateLimiter) (key : String) (now : Int)
    (hlim : 1 ≤ rl.limit) :
    ((((rl.requests key).filter (fun ts => now - rl.window < ts)).length : Int) < rl.limit →
      rl.Allow key now = some ((true, 0),
        { rl with requests := fun k => if k = key then
            (rl.requests key).filter (fun ts => now - rl.window < ts) ++ [now]
          else rl.requests k })) ∧
    (rl.limit ≤ (((rl.requests key).filter (fun ts => now - rl.window < ts)).length : Int) →
      ∃ oldest rest,
        (rl.requests key).filter (fun ts => now - rl.window < ts) = oldest :: rest ∧
        rl.Allow key now = some ((false, oldest + rl.window - now),
          { rl with requests := fun k => if k = key then oldest :: rest else rl.requests k })) := by
  constructor
  · intro h
    exact Allow_admit_eq rl key now (not_le.mpr h)
  · intro h
    rcases hv : (rl.requests key).filter (fun ts => now - rl.window < ts) with _ | ⟨oldest, rest⟩
    · rw [hv] at h
      simp only [List.length_nil, Int.ofNat_zero, Nat.cast_zero] at h
      omega
    · exact ⟨oldest, rest, rfl, Allow_deny_eq rl key now oldest rest hv (hv ▸ h)⟩

/-- A concrete limiter (limit 1, window 10, empty store) used to
instantiate the hypothesis-bearing limiter theorems. -/
def rlW : RateLimiter := { limit := 1, window := 10, requests := fun _ => [] }

/-- Closed witness for `Allow_spec`: a limiter with limit 1 and an
empty store admits at time 0 and records the timestamp. -/
theorem Allow_spec_witness :
    ((((rlW.requests "u").filter (fun ts => 0 - rlW.window < ts)).length : Int) < rlW.limit →
      rlW.Allow "u" 0 = some ((true, 0),
        { rlW with requests := fun k => if k = "u" then
            (rlW.requests "u").filter (fun ts => 0 - rlW.window < ts) ++ [0]
          else rlW.requests k })) ∧
    (rlW.limit ≤ (((rlW.requests "u").filter (fun ts => 0 - rlW.window < ts)).length : Int) →
      ∃ oldest rest,
        (rlW.requests "u").filter (fun ts => 0 - rlW.window < ts) = oldest :: rest ∧
        rlW.Allow "u" 0 = some ((false, oldest + rlW.window - 0),
          { rlW with requests := fun k => if k = "u" then oldest :: rest
            else rlW.requests k })) :=
  Allow_spec rlW "u" 0 (by norm_num [rlW])

/-- The limiter's store invariant: every key's recorded list is sorted
ascending and bounded by the current clock reading. -/
def TimesSorted (rl : RateLimiter) (now : Int) : Prop :=
  ∀ k, List.Sorted (· ≤ ·) (rl.requests k) ∧ ∀ t ∈ rl.requests k, t ≤ now

/-- C9: every `Allow` call preserves sortedness of every key's
timestamp list, under a monotone clock (all stored stamps are earlier
clock readings): pruning keeps an ordered sublist and a new timestamp is
only appended at the end. -/
theorem Allow_preserves_sorted (rl : RateLimiter) (key : String) (now now' : Int)
    (hmono : now ≤ now') (hinv : TimesSorted rl now)
    (res : (Bool × Int) × RateLimiter)
    (h : rl.Allow key now' = some res) :
    TimesSorted res.2 now' := by
  obtain ⟨r, rl'⟩ := res
  have hweak : TimesSorted rl now' := fun k =>
    ⟨(hinv k).1, fun t ht => le_trans ((hinv k).2 t ht) hmono⟩
  have hfil : ∀ k, List.Sorted (· ≤ ·)
      ((rl.requests k).filter (fun ts => now' - rl.window < ts)) :=
    fun k => ((hweak k).1).filter _
  have hfilmem : ∀ k t, t ∈ (rl.requests k).filter (fun ts => now' - rl.window < ts) →
      t ≤ now' := by
    intro k t ht
    exact (hweak k).2 t (List.mem_of_mem_filter ht)
  simp only [RateLimiter.Allow] at h
  split at h
  · -- denial branch: the pruned list is stored unchanged
    split at h
    · exact absurd h (by simp)
    · rename_i oldest rest heq
      injection h with h'
      rw [← h']
      intro k
      by_cases hk : k = key
      · subst hk
        simp only [if_pos rfl]
        exact ⟨heq ▸ hfil k, fun t ht => hfilmem k t (heq ▸ ht)⟩
      · simp only [if_neg hk]
        exact hweak k
  · -- admission branch: the new stamp is appended at the end
    injection h with h'
    rw [← h']
    intro k
    by_cases hk : k = key
    · subst hk
      simp only [if_pos rfl]
      constructor
      · refine List.pairwise_append.mpr ⟨hfil k, List.sorted_singleton _, ?_⟩
        intro a ha b hb
        rw [List.mem_singleton] at hb
        exact hb ▸ hfilmem k a ha
      · intro t ht
        rcases List.mem_append.mp ht with ht' | ht'
        · exact hfilmem k t ht'
        · rw [List.mem_singleton] at ht'
          exact le_of_eq ht'
    · simp only [if_neg hk]
      exact hweak k

/-- Closed witness for `Allow_preserves_sorted`: the concrete limiter
admits at time 5 and the resulting store is sorted and bounded. -/
theorem Allow_preserves_sorted_witness :
    TimesSorted { limit := 1, window := 10, requests := fun k => if k = "u" then [5] else [] } 5 :=
  Allow_preserves_sorted rlW "u" 0 5 (by norm_num)
    (fun _ => ⟨List.sorted_nil, by simp [rlW]⟩)
    ((true, 0), { limit := 1, window := 10, requests := fun k => if k = "u" then [5] else [] })
    rfl

/-- Helper: a store in which nothing has expired is returned whole by
the prune. -/
theorem filter_eq_self_of_fresh (W t : Int) (s : List Int)
    (h : ∀ x ∈ s, t - W < x) :
    s.filter (fun ts => t - W < ts) = s :=
  List.filter_eq_self.mpr fun a ha => decide_eq_true (h a ha)

/-- Core induction for the admission-count theorem: starting from a
store `s` for `key` in which no entry can expire during the run (every
clock reading in `ts` is within `window` of every stored entry and of
every other reading), the run admits while free slots remain and then
denies every further request. -/
theorem runAllows_replicate (L W : Int) (key : String) (hL : 1 ≤ L)
    (ts : List Int) :
    ∀ (reqs : String → List Int) (s : List Int),
      reqs key = s →
      (∀ x ∈ s, ∀ t ∈ ts, t - W < x) →
      (∀ a ∈ ts, ∀ b ∈ ts, a - W < b) →
      (s.length : Int) ≤ L →
      ∃ rlF, runAllows key ⟨L, W, reqs⟩ ts =
        some (List.replicate (min (L - (s.length : Int)).toNat ts.length) true ++
              List.replicate (ts.length - (L - (s.length : Int)).toNat) false, rlF) := by
  induction ts with
  | nil =>
    intro reqs s _ _ _ _
    exact ⟨⟨L, W, reqs⟩, by simp [runAllows]⟩
  | cons t ts ih =>
    intro reqs s hk hs hts hlen
    have hmemt : t ∈ t :: ts := List.mem_cons_self t ts
    have hfresh : ∀ x ∈ s, t - W < x := fun x hx => hs x hx t hmemt
    have hfil : (reqs key).filter (fun x => t - W < x) = s := by
      rw [hk]; exact filter_eq_self_of_fresh W t s hfresh
    by_cases hfree : L ≤ (s.length : Int)
    · -- no free slot: denied, store unchanged
      obtain ⟨oldest, rest, hcons⟩ : ∃ oldest rest, s = oldest :: rest := by
        cases s with
        | nil => simp at hlen hfree; omega
        | cons a l => exact ⟨a, l, rfl⟩
      have hallow := Allow_deny_eq ⟨L, W, reqs⟩ key t oldest rest
        (by simpa [hcons] using hfil) (by rw [← hcons]; simpa using hfree)
      obtain ⟨rlF, hrun⟩ := ih (fun k => if k = key then oldest :: rest else reqs k) s
        (by simp [hcons]) (fun x hx t' ht' => hs x hx t' (List.mem_cons_of_mem _ ht'))
        (fun a ha b hb => hts a (List.mem_cons_of_mem _ ha) b (List.mem_cons_of_mem _ hb))
        hlen
      refine ⟨rlF, ?_⟩
      have h0 : (L - (s.length : Int)).toNat = 0 := by omega
      simp only [runAllows, hallow, hrun, h0, List.length_cons, Nat.zero_min,
        List.replicate_zero, List.nil_append, Nat.sub_zero, List.replicate_succ]
    · -- a free slot remains: admitted, the stamp is appended
      have hallow := Allow_admit_eq ⟨L, W, reqs⟩ key t (by simpa [hfil] using hfree)
      simp only [hfil] at hallow
      obtain ⟨rlF, hrun⟩ := ih (fun k => if k = key then s ++ [t] else reqs k) (s ++ [t])
        (by simp)
        (by
          intro x hx t' ht'
          rcases List.mem_append.mp hx with hx' | hx'
          · exact hs x hx' t' (List.mem_cons_of_mem _ ht')
          · rw [List.mem_singleton] at hx'
            exact hx' ▸ hts t' (List.mem_cons_of_mem _ ht') t hmemt)
        (fun a ha b hb => hts a (List.mem_cons_of_mem _ ha) b (List.mem_cons_of_mem _ hb))
        (by simp; omega)
      refine ⟨rlF, ?_⟩
      obtain ⟨f, hf⟩ : ∃ f, (L - (s.length : Int)).toNat = f + 1 :=
        ⟨(L - (s.length : Int)).toNat - 1, by omega⟩
      have hf1 : (L - (((s ++ [t]).length : Nat) : Int)).toNat = f := by
        simp only [List.length_append, List.length_singleton]
        push_cast
        omega
      simp only [runAllows, hallow, hrun, hf1, hf, List.length_cons,
        Nat.succ_min_succ, Nat.succ_sub_succ, List.replicate_succ, List.cons_append]

/-- C8: the limiter's mutex makes every concurrent execution a sequence
of atomic `Allow` steps; for any such sequence of `N` calls for one key
against a fresh limiter, all mutually within one window, with
`limit = L < N`, exactly `L` calls are admitted and `N - L` denied. -/
theorem concurrent_allows (L W : Int) (key : String) (ts : List Int)
    (hL : 1 ≤ L) (hN : L < (ts.length : Int))
    (hts : ∀ a ∈ ts, ∀ b ∈ ts, a - W < b) :
    ∃ results rlF,
      runAllows key (NewRateLimiter L W) ts = some (results, rlF) ∧
      (results.count true : Int) = L ∧
      (results.count false : Int) = (ts.length : Int) - L := by
  obtain ⟨rlF, hrun⟩ := runAllows_replicate L W key hL ts (fun _ => []) [] rfl
    (by simp) hts (by simp; omega)
  refine ⟨_, rlF, hrun, ?_, ?_⟩
  · simp only [List.length_nil, Nat.cast_zero, sub_zero] at *
    rw [List.count_append, List.count_replicate, List.count_replicate]
    simp only [beq_self_eq_true, if_pos, beq_iff_eq, Bool.false_eq_true, if_neg, reduceIte]
    omega
  · simp only [List.length_nil, Nat.cast_zero, sub_zero] at *
    rw [List.count_append, List.count_replicate, List.count_replicate]
    simp only [beq_iff_eq, Bool.true_eq_false, reduceIte]
    omega

/-- Closed witness for `concurrent_allows`: three simultaneous calls
against a fresh limit-2 limiter admit exactly two. -/
theorem concurrent_allows_witness :
    ∃ results rlF,
      runAllows "u" (NewRateLimiter 2 10) [0, 0, 0] = some (results, rlF) ∧
      (results.count true : Int) = 2 ∧
      (results.count false : Int) = (([0, 0, 0] : List Int).length : Int) - 2 :=
  concurrent_allows 2 10 "u" [0, 0, 0] (by norm_num) (by norm_num) (by decide)

/-! ## JSON decoding

A model of Go's `encoding/json` as used by `Complete` on the tool-call
arguments: a JSON value grammar (RFC 8259: `null`, booleans, numbers,
strings with escapes, arrays, objects; surrounding whitespace allowed,
trailing data refused) and Go's `Unmarshal` semantics for the
`SearchArgs` struct (a single string field tagged `query`): a missing
key leaves the field at its zero value `""`, a `null` document or field
leaves the zero value, a later duplicate key overwrites an earlier one,
key matching is case-insensitive, and any type mismatch or syntax error
is an error. -/

inductive Json where
  | null
  | bool (b : Bool)
  | num (raw : String)
  | str (s : String)
  | arr (elems : List Json)
  | obj (fields : List (String × Json))

def isJsonWS (c : Char) : Bool :=
  c = ' ' || c = '\t' || c = '\n' || c = '\r'

def skipWS : List Char → List Char
  | [] => []
  | c :: cs => if isJsonWS c then skipWS cs else c :: cs

def isJsonDigit (c : Char) : Bool := '0' ≤ c && c ≤ '9'

def hexVal (c : Char) : Option Nat :=
  let n := c.toNat
  if 48 ≤ n ∧ n ≤ 57 then some (n - 48)
  else if 97 ≤ n ∧ n ≤ 102 then some (n - 87)
  else if 65 ≤ n ∧ n ≤ 70 then some (n - 55)
  else none

/-- Body of a JSON string (the opening quote already consumed). -/
def parseStringBody : Nat → List Char → String → Option (String × List Char)
  | 0, _, _ => none
  | fuel + 1, cs, acc =>
    match cs with
    | [] => none
    | '"' :: rest => some (acc, rest)
    | '\\' :: e :: rest =>
      match e with
      | '"' => parseStringBody fuel rest (acc.push '"')
      | '\\' => parseStringBody fuel rest (acc.push '\\')
      | '/' => parseStringBody fuel rest (acc.push '/')
      | 'b' => parseStringBody fuel rest (acc.push (Char.ofNat 8))
      | 'f' => parseStringBody fuel rest (acc.push (Char.ofNat 12))
      | 'n' => parseStringBody fuel rest (acc.push '\n')
      | 'r' => parseStringBody fuel rest (acc.push '\r')
      | 't' => parseStringBody fuel rest (acc.push '\t')
      | 'u' =>
        match rest with
        | h1 :: h2 :: h3 :: h4 :: rest2 =>
          match hexVal h1, hexVal h2, hexVal h3, hexVal h4 with
          | some a, some b, some c, some d =>
            parseStringBody fuel rest2 (acc.push (Char.ofNat (((a * 16 + b) * 16 + c) * 16 + d)))
          | _, _, _, _ => none
        | _ => none
      | _ => none
    | c :: rest => if c.toNat < 32 then none else parseStringBody fuel rest (acc.push c)

/-- Longest digit prefix. -/
def takeDigits : List Char → List Char × List Char
  | [] => ([], [])
  | c :: cs =>
    if isJsonDigit c then
      let (d, r) := takeDigits cs
      (c :: d, r)
    else ([], c :: cs)

/-- A JSON number: optional minus, integer part, optional fraction,
optional exponent; returns the consumed characters and the rest. -/
def parseNumber (cs : List Char) : Option (List Char × List Char) :=
  let (negPart, cs1) :=
    match cs with
    | '-' :: t => (['-'], t)
    | _ => (([] : List Char), cs)
  let (intDigits, cs2) := takeDigits cs1
  if intDigits.isEmpty then none
  else
    let contFrac : Option (List Char × List Char) :=
      match cs2 with
      | '.' :: t =>
        let (fd, r) := takeDigits t
        if fd.isEmpty then none else some ('.' :: fd, r)
      | _ => some ([], cs2)
    match contFrac with
    | none => none
    | some (fracPart, cs3) =>
      let contExp : Option (List Char × List Char) :=
        match cs3 with
        | 'e' :: t =>
          (match t with
           | '+' :: t2 =>
             let (ed, r) := takeDigits t2
             if ed.isEmpty then none else some ('e' :: '+' :: ed, r)
           | '-' :: t2 =>
             let (ed, r) := takeDigits t2
             if ed.isEmpty then none else some ('e' :: '-' :: ed, r)
           | _ =>
             let (ed, r) := takeDigits t
             if ed.isEmpty then none else some ('e' :: ed, r))
        | 'E' :: t =>
          (match t with
           | '+' :: t2 =>
             let (ed, r) := takeDigits t2
             if ed.isEmpty then none else some ('E' :: '+' :: ed, r)
           | '-' :: t2 =>
             let (ed, r) := takeDigits t2
             if ed.isEmpty then none else some ('E' :: '-' :: ed, r)
           | _ =>
             let (ed, r) := takeDigits t
             if ed.isEmpty then none else some ('E' :: ed, r))
        | _ => some ([], cs3)
      match contExp with
      | none => none
      | some (expPart, cs4) => some (negPart ++ intDigits ++ fracPart ++ expPart, cs4)

mutual

/-- One JSON value, leading whitespace allowed. -/
def parseValue : Nat → List Char → Option (Json × List Char)
  | 0, _ => none
  | fuel + 1, cs =>
    match skipWS cs with
    | 'n' :: 'u' :: 'l' :: 'l' :: rest => some (Json.null, rest)
    | 't' :: 'r' :: 'u' :: 'e' :: rest => some (Json.bool true, rest)
    | 'f' :: 'a' :: 'l' :: 's' :: 'e' :: rest => some (Json.bool false, rest)
    | '"' :: rest =>
      match parseStringBody (rest.length + 1) rest "" with
      | some (s, rest2) => some (Json.str s, rest2)
      | none => none
    | '[' :: rest =>
      (match skipWS rest with
       | ']' :: rest2 => some (Json.arr [], rest2)
       | _ =>
         match parseElems fuel rest with
         | some (xs, rest2) => some (Json.arr xs, rest2)
         | none => none)
    | '{' :: rest =>
      (match skipWS rest with
       | '}' :: rest2 => some (Json.obj [], rest2)
       | _ =>
         match parseFields fuel rest with
         | some (fs, rest2) => some (Json.obj fs, rest2)
         | none => none)
    | c :: rest =>
      if c = '-' || isJsonDigit c then
        match parseNumber (c :: rest) with
        | some (raw, rest2) => some (Json.num (String.mk raw), rest2)
        | none => none
      else none
    | [] => none

/-- Comma-separated array elements up to the closing bracket. -/
def parseElems : Nat → List Char → Option (List Json × List Char)
  | 0, _ => none
  | fuel + 1, cs =>
    match parseValue fuel cs with
    | none => none
    | some (v, rest) =>
      match skipWS rest with
      | ',' :: rest2 =>
        (match parseElems fuel rest2 with
         | some (vs, rest3) => some (v :: vs, rest3)
         | none => none)
      | ']' :: rest2 => some ([v], rest2)
      | _ => none

/-- Comma-separated `"key": value` pairs up to the closing brace. -/
def parseFields : Nat → List Char → Option (List (String × Json) × List Char)
  | 0, _ => none
  | fuel + 1, cs =>
    match skipWS cs with
    | '"' :: rest =>
      (match parseStringBody (rest.length + 1) rest "" with
       | none => none
       | some (key, rest2) =>
         match skipWS rest2 with
         | ':' :: rest3 =>
           (match parseValue fuel rest3 with
            | none => none
            | some (v, rest4) =>
              match skipWS rest4 with
              | ',' :: rest5 =>
                (match parseFields fuel rest5 with
                 | some (fs, rest6) => some ((key, v) :: fs, rest6)
                 | none => none)
              | '}' :: rest5 => some ([(key, v)], rest5)
              | _ => none)
         | _ => none)
    | _ => none

end

/-- A whole JSON document: one value, whitespace around it, nothing
after it (Go's `Unmarshal` refuses trailing data). -/
def parseJson (s : String) : Option Json :=
  match parseValue (2 * s.length + 2) s.toList with
  | some (v, rest) => if (skipWS rest).isEmpty then some v else none
  | none => none

/-- Go `SearchArgs`: the decoded arguments of the `search_internet`
tool. -/
structure SearchArgs where
  query : String
deriving DecidableEq

/-- ASCII lower-casing of one character (Go's case-insensitive field
matching, restricted to ASCII, which is all the tag `query` needs). -/
def lowerAscii (c : Char) : Char :=
  if 'A' ≤ c && c ≤ 'Z' then Char.ofNat (c.toNat + 32) else c

/-- ASCII lower-casing of a string. -/
def strLower (s : String) : String := String.mk (s.data.map lowerAscii)

/-- Go `json.Unmarshal(data, &args)` for `SearchArgs{Query string}`
(tag `query`): syntax error or top-level/field type mismatch is an
error; a missing key, a `null` document or a `null` field leaves the
zero value `""`; on duplicate keys the last wins; key matching is
case-insensitive. -/
def unmarshalSearchArgs (s : String) : Except String SearchArgs :=
  match parseJson s with
  | none => Except.error "invalid character or unexpected end of JSON input"
  | some Json.null => Except.ok { query := "" }
  | some (Json.obj fields) =>
    match (fields.filter (fun kv => strLower kv.1 == "query")).getLast? with
    | none => Except.ok { query := "" }
    | some (_, Json.str v) => Except.ok { query := v }
    | some (_, Json.null) => Except.ok { query := "" }
    | some (_, _) => Except.error "cannot unmarshal value into field Query of type string"
  | some _ => Except.error "cannot unmarshal value into Go value of type ai.SearchArgs"

/-! ## The DeepSeek client (ai package, src/ai/client.go)

The wire types, mirroring the Go structs.  `chatResponse.Choices` is a
list of structs each holding one `Message`; it is modelled as the list
of those messages.  The HTTP transport is an oracle: the outcomes of
the at most two `call` invocations are passed in as `resp1`/`resp2`
(`Except` of an opaque error), and `Complete` additionally returns the
trace of the calls it made (what messages and tool descriptors each
sent) and the trace of executor invocations, so that claims about call
counts and forwarded histories are statable. -/

structure FunctionCall where
  name : String
  arguments : String
deriving DecidableEq

structure ToolCall where
  id : String
  type : String
  function : FunctionCall
deriving DecidableEq

structure Message where
  role : String
  content : String
  toolCalls : List ToolCall
  toolCallID : String
deriving DecidableEq

structure FunctionSchema where
  name : String
  description : String
  strict : Bool
  parameters : String
deriving DecidableEq

structure ToolDef where
  type : String
  function : FunctionSchema
deriving DecidableEq

structure ChatResponse where
  choices : List Message
deriving DecidableEq

/-- Go `CompletionResult`. -/
structure CompletionResult where
  reply : String
  webSearchUsed : Bool
  webSearchError : Option String
  webSearchQuery : String
deriving DecidableEq

/-- The failure outcomes of `Complete`: a failed transport call, an
empty choice list (first or second phase), or undecodable tool
arguments. -/
inductive CompleteError where
  | transport (e : String)
  | emptyResponse
  | emptyResponseSecond
  | invalidToolArgs (msg : String)
deriving DecidableEq

/-- One recorded transport call: the message history and the tool
descriptors it sent. -/
structure CallRecord where
  messages : List Message
  tools : List ToolDef
deriving DecidableEq

/-- Go `(*Client).Complete`.  `searchFn` is the optional executor
(`none` = Go nil); it returns the result text and an optional error.
The returned triple is (outcome, transport-call trace, executor-call
trace). -/
def Complete (messages : List Message) (tools : List ToolDef)
    (searchFn : Option (String → String × Option String))
    (resp1 resp2 : Except String ChatResponse) :
    Except CompleteError CompletionResult × List CallRecord × List String :=
  let call1 : CallRecord := { messages := messages, tools := tools }
  match resp1 with
  | Except.error e => (Except.error (CompleteError.transport e), [call1], [])
  | Except.ok resp =>
    match resp.choices with
    | [] => (Except.error CompleteError.emptyResponse, [call1], [])
    | msg :: _ =>
      let noTool : Except CompleteError CompletionResult × List CallRecord × List String :=
        (Except.ok { reply := msg.content, webSearchUsed := false,
                     webSearchError := none, webSearchQuery := "" }, [call1], [])
      match msg.toolCalls, searchFn with
      | tc :: _, some fn =>
        if tc.function.name = "search_internet" then
          match unmarshalSearchArgs tc.function.arguments with
          | Except.error e => (Except.error (CompleteError.invalidToolArgs e), [call1], [])
          | Except.ok args =>
            let searchOut := fn args.query
            let messages2 := messages ++
              [ { role := "assistant", content := "", toolCalls := msg.toolCalls,
                  toolCallID := "" },
                { role := "tool", content := searchOut.1, toolCalls := [],
                  toolCallID := tc.id } ]
            let call2 : CallRecord := { messages := messages2, tools := [] }
            match resp2 with
            | Except.error e =>
              (Except.error (CompleteError.transport e), [call1, call2], [args.query])
            | Except.ok resp2v =>
              match resp2v.choices with
              | [] => (Except.error CompleteError.emptyResponseSecond, [call1, call2],
                       [args.query])
              | msg2 :: _ =>
                (Except.ok { reply := msg2.content, webSearchUsed := true,
                             webSearchError := searchOut.2, webSearchQuery := args.query },
                 [call1, call2], [args.query])
        else noTool
      | _, _ => noTool

/-! ## HTTP error classification (src/ai/client.go, `call` and
`APIError.UserMessage`) -/

/-- Go `APIError`: the structured error for a non-200 response. -/
structure APIError where
  statusCode : Int
  body : String
deriving DecidableEq

/-- The status check in `call` (lines 219-222): every non-200 status
becomes `APIError{StatusCode, Body}`; a 200 proceeds to decoding. -/
def callStatusResult (status : Int) (body : String) : Option APIError :=
  if status ≠ 200 then some { statusCode := status, body := body } else none

/-- The `default` arm of the `UserMessage` switch: the user-facing
message for an unrecognized status code. -/
def unknownErrMsg : String :=
  "❌ Oups, on dirait que Dieu Xélor fait encore des siennes, mes signaux sont perturbés ! Ré-essaye dans quelques instants. (Erreur inconnue)"

/-- Go `(*APIError).UserMessage`: the switch over the status code. -/
def APIError.UserMessage (e : APIError) : String :=
  if e.statusCode = 400 then
    "💨 Un simple courant d'air ? Le grand silence de la Shukrute ?\nTon message est complètement vide ! Envoie-moi quelques mots, je ne maîtrise pas encore la télépathie. (Erreur 400)"
  else if e.statusCode = 401 then
    "❌🛡️❌ Oulah ça sent le porkass grillé, la milice m'a refoulé l'accès !\n Mon créateur doit corriger mes accès pour que je puisse te répondre. (Erreur 401)"
  else if e.statusCode = 402 then
    "❌🪙❌ Par la sainte barbe du Dieu Enutrof, on dirait bien que ma bourse sonne creux !\n Mon créateur doit ré-injecter des Kamas pour que je puisse continuer à t'aider. (Erreur 402)"
  else if e.statusCode = 422 then
    "❌⚙️❌ Oups... Le cadran de mon Xélor interne s'est emmêlé les aiguilles, ou alors l'alchimie est mauvaise. Ma configuration actuelle m'empêche de te répondre correctement.\n Mon créateur doit revoir la configuration de mon modèle ou de mes outils. (Erreur 422)"
  else if e.statusCode = 429 then
    "❌⚡❌ Oula, tes Tofus messagers sont sur les rotules ! Tu spam comme un fou. Laisse-leur le temps de picorer quelques graines et ré-essaye dans un instant. (Erreur 429)"
  else if e.statusCode = 500 then
    "❌💥❌ Aïe... Une de mes tourelles Steamer vient de surchauffer en coulisses. C'est de ma faute ! Mes technomages sont sur le coup pour réparer les rouages, reviens me voir dans un petit instant. (Erreur 500)"
  else if e.statusCode = 503 then
    "❌⏳❌ Embouteillage monstre au Zaap d'Astrub ! Il y a beaucoup trop de monde qui me parle en même temps et mes circuits débordent. Prends une petite limonade et ré-essaye dans quelques minutes. (Erreur 503)"
  else
    unknownErrMsg

/-- The tool round of `Complete`, characterized: when the first
response proposes the registered tool with decodable arguments and the
second response succeeds with a nonempty choice list, the executor runs
once on the decoded query, the second call receives the original
history plus the assistant proposal (verbatim) and a tool-role reply
carrying the executor's text and the proposal's id — and no tool
descriptors — and the final result reports the tool use. -/
theorem Complete_tool_round (messages : List Message) (tools : List ToolDef)
    (fn : String → String × Option String) (r r2 : ChatResponse)
    (msg msg2 : Message) (mrest m2rest : List Message)
    (tc : ToolCall) (tcs : List ToolCall) (args : SearchArgs)
    (hc : r.choices = msg :: mrest)
    (htc : msg.toolCalls = tc :: tcs)
    (hname : tc.function.name = "search_internet")
    (hargs : unmarshalSearchArgs tc.function.arguments = Except.ok args)
    (hc2 : r2.choices = msg2 :: m2rest) :
    Complete messages tools (some fn) (Except.ok r) (Except.ok r2) =
      (Except.ok { reply := msg2.content, webSearchUsed := true,
                   webSearchError := (fn args.query).2, webSearchQuery := args.query },
       [ { messages := messages, tools := tools },
         { messages := messages ++
             [ { role := "assistant", content := "", toolCalls := msg.toolCalls,
                 toolCallID := "" },
               { role := "tool", content := (fn args.query).1, toolCalls := [],
                 toolCallID := tc.id } ],
           tools := [] } ],
       [args.query]) := by
  simp only [Complete, hc, htc]
  rw [if_pos hname]
  simp only [hargs, hc2]

/-- The executor-invocation trace of `Complete`, characterized in full:
it is empty unless the first response succeeds, an executor is present,
the first choice's first tool call names the registered tool and its
arguments decode — in which case it is exactly the one decoded query. -/
theorem Complete_queries_eq (messages : List Message) (tools : List ToolDef)
    (searchFn : Option (String → String × Option String))
    (resp1 resp2 : Except String ChatResponse) :
    (Complete messages tools searchFn resp1 resp2).2.2 =
      match resp1, searchFn with
      | Except.ok r, some _ =>
        (match r.choices with
         | msg :: _ =>
           (match msg.toolCalls with
            | tc :: _ =>
              if tc.function.name = "search_internet" then
                match unmarshalSearchArgs tc.function.arguments with
                | Except.ok args => [args.query]
                | Except.error _ => []
              else []
            | [] => [])
         | [] => [])
      | _, _ => [] := by
  cases resp1 with
  | error e => cases searchFn <;> rfl
  | ok r =>
    cases hc : r.choices with
    | nil => cases searchFn <;> simp [Complete, hc]
    | cons msg mrest =>
      cases searchFn with
      | none => cases htc : msg.toolCalls <;> simp [Complete, hc, htc]
      | some fn =>
        cases htc : msg.toolCalls with
        | nil => simp [Complete, hc, htc]
        | cons tc tcs =>
          by_cases hname : tc.function.name = "search_internet"
          · simp only [Complete, hc, htc, if_pos hname]
            cases hargs : unmarshalSearchArgs tc.function.arguments with
            | error e => simp [hargs]
            | ok args =>
              cases resp2 with
              | error e2 => simp [hargs]
              | ok r2 => cases hc2 : r2.choices <;> simp [hargs, hc2]
          · simp [Complete, hc, htc, hname]

/-! ## Claims about the orchestrator -/

/-- C2: when the first response proposes the registered tool and the
arguments decode, `Complete` performs exactly two transport calls; the
second call's history is the original plus the assistant proposal
(verbatim) and a tool-role message carrying the executor's returned
text and the proposal's id, with no tool descriptors; the result has
`toolInvoked = true` and `toolQuery` the decoded query. -/
theorem Complete_two_phase (messages : List Message) (tools : List ToolDef)
    (fn : String → String × Option String) (r r2 : ChatResponse)
    (msg msg2 : Message) (mrest m2rest : List Message)
    (tc : ToolCall) (tcs : List ToolCall) (args : SearchArgs)
    (hc : r.choices = msg :: mrest)
    (htc : msg.toolCalls = tc :: tcs)
    (hname : tc.function.name = "search_internet")
    (hargs : unmarshalSearchArgs tc.function.arguments = Except.ok args)
    (hc2 : r2.choices = msg2 :: m2rest) :
    Complete messages tools (some fn) (Except.ok r) (Except.ok r2) =
      (Except.ok { reply := msg2.content, webSearchUsed := true,
                   webSearchError := (fn args.query).2, webSearchQuery := args.query },
       [ { messages := messages, tools := tools },
         { messages := messages ++
             [ { role := "assistant", content := "", toolCalls := msg.toolCalls,
                 toolCallID := "" },
               { role := "tool", content := (fn args.query).1, toolCalls := [],
                 toolCallID := tc.id } ],
           tools := [] } ],
       [args.query]) :=
  Complete_tool_round messages tools fn r r2 msg msg2 mrest m2rest tc tcs args
    hc htc hname hargs hc2

/-- C3: when the executor returns a non-nil error with fallback text,
`Complete` still performs the second transport call, still returns a
successful result with `toolInvoked = true`, and records the executor's
error in `toolError`; the error never fails the overall call. -/
theorem Complete_executor_error (messages : List Message) (tools : List ToolDef)
    (fn : String → String × Option String) (r r2 : ChatResponse)
    (msg msg2 : Message) (mrest m2rest : List Message)
    (tc : ToolCall) (tcs : List ToolCall) (args : SearchArgs)
    (text err : String)
    (hc : r.choices = msg :: mrest)
    (htc : msg.toolCalls = tc :: tcs)
    (hname : tc.function.name = "search_internet")
    (hargs : unmarshalSearchArgs tc.function.arguments = Except.ok args)
    (hfn : fn args.query = (text, some err))
    (hc2 : r2.choices = msg2 :: m2rest) :
    (Complete messages tools (some fn) (Except.ok r) (Except.ok r2)).1 =
      Except.ok { reply := msg2.content, webSearchUsed := true,
                  webSearchError := some err, webSearchQuery := args.query } ∧
    (Complete messages tools (some fn) (Except.ok r) (Except.ok r2)).2.1.length = 2 := by
  have h := Complete_tool_round messages tools fn r r2 msg msg2 mrest m2rest tc tcs args
    hc htc hname hargs hc2
  rw [h]
  simp [hfn]

/-- C4: with no proposed tool call, a proposed tool of the wrong name,
or a nil executor, `Complete` performs exactly one transport call and
returns the first response's content, invoking no executor. -/
theorem Complete_no_tool (messages : List Message) (tools : List ToolDef)
    (searchFn : Option (String → String × Option String))
    (resp1 resp2 : Except String ChatResponse)
    (r : ChatResponse) (msg : Message) (mrest : List Message)
    (h1 : resp1 = Except.ok r) (hc : r.choices = msg :: mrest)
    (h : msg.toolCalls = [] ∨
         (∃ tc tcs, msg.toolCalls = tc :: tcs ∧ tc.function.name ≠ "search_internet") ∨
         searchFn = none) :
    Complete messages tools searchFn resp1 resp2 =
      (Except.ok { reply := msg.content, webSearchUsed := false,
                   webSearchError := none, webSearchQuery := "" },
       [{ messages := messages, tools := tools }], []) := by
  subst h1
  rcases h with h | ⟨tc, tcs, htc, hname⟩ | h
  · cases searchFn <;> simp [Complete, hc, h]
  · cases searchFn with
    | none => simp [Complete, hc, htc]
    | some fn => simp [Complete, hc, htc, hname]
  · subst h
    cases htc : msg.toolCalls with
    | nil => simp [Complete, hc, htc]
    | cons a l => simp [Complete, hc, htc]

/-- C5: when the first proposed tool call's arguments fail to decode,
`Complete` aborts with an error: no executor call, no second transport
call, no result. -/
theorem Complete_args_abort (messages : List Message) (tools : List ToolDef)
    (fn : String → String × Option String) (resp2 : Except String ChatResponse)
    (r : ChatResponse) (msg : Message) (mrest : List Message)
    (tc : ToolCall) (tcs : List ToolCall) (e : String)
    (hc : r.choices = msg :: mrest) (htc : msg.toolCalls = tc :: tcs)
    (hname : tc.function.name = "search_internet")
    (hargs : unmarshalSearchArgs tc.function.arguments = Except.error e) :
    Complete messages tools (some fn) (Except.ok r) resp2 =
      (Except.error (CompleteError.invalidToolArgs e),
       [{ messages := messages, tools := tools }], []) := by
  simp only [Complete, hc, htc]
  rw [if_pos hname]
  simp [hargs]

/-- C6: at most one tool invocation is honored per request — the
executor trace never exceeds one entry, and it is determined by the
first proposed call alone (truncating the proposal list to its head
leaves the executor trace unchanged). -/
theorem Complete_at_most_one_tool (messages : List Message) (tools : List ToolDef)
    (searchFn : Option (String → String × Option String))
    (resp1 resp2 : Except String ChatResponse) :
    (Complete messages tools searchFn resp1 resp2).2.2.length ≤ 1 ∧
    (∀ (r : ChatResponse) (msg : Message) (mrest : List Message)
        (tc : ToolCall) (tcs : List ToolCall),
      resp1 = Except.ok r → r.choices = msg :: mrest → msg.toolCalls = tc :: tcs →
      (Complete messages tools searchFn resp1 resp2).2.2 =
      (Complete messages tools searchFn
        (Except.ok { choices := { msg with toolCalls := [tc] } :: mrest }) resp2).2.2) := by
  constructor
  · rw [Complete_queries_eq]
    rcases resp1 with e | r
    · cases searchFn <;> simp
    · cases searchFn with
      | none => simp
      | some fn =>
        rcases hc : r.choices with _ | ⟨msg, mrest⟩
        · simp [hc]
        · rcases htc : msg.toolCalls with _ | ⟨tc, tcs⟩
          · simp [hc, htc]
          · by_cases hname : tc.function.name = "search_internet"
            · rcases hargs : unmarshalSearchArgs tc.function.arguments with e | args <;>
                simp [hc, htc, hname, hargs]
            · simp [hc, htc, hname]
  · intro r msg mrest tc tcs h1 hc htc
    subst h1
    rw [Complete_queries_eq, Complete_queries_eq]
    cases searchFn with
    | none => rfl
    | some fn => simp [hc, htc]

/-- C10: `rawArguments = "\x7b\x7d"` (valid JSON, no `query` key) is
not a decode failure: decoding yields the empty query, the executor is
invoked with `""`, and the result's `toolQuery` is `""`. -/
theorem Complete_missing_query_field (messages : List Message) (tools : List ToolDef)
    (fn : String → String × Option String) (r r2 : ChatResponse)
    (msg msg2 : Message) (mrest m2rest : List Message)
    (tc : ToolCall) (tcs : List ToolCall)
    (hc : r.choices = msg :: mrest)
    (htc : msg.toolCalls = tc :: tcs)
    (hname : tc.function.name = "search_internet")
    (hraw : tc.function.arguments = "\x7b\x7d")
    (hc2 : r2.choices = msg2 :: m2rest) :
    unmarshalSearchArgs "\x7b\x7d" = Except.ok { query := "" } ∧
    (Complete messages tools (some fn) (Except.ok r) (Except.ok r2)).2.2 = [""] ∧
    (Complete messages tools (some fn) (Except.ok r) (Except.ok r2)).1 =
      Except.ok { reply := msg2.content, webSearchUsed := true,
                  webSearchError := (fn "").2, webSearchQuery := "" } := by
  have hdec : unmarshalSearchArgs "\x7b\x7d" = Except.ok { query := "" } := by rfl
  have h := Complete_tool_round messages tools fn r r2 msg msg2 mrest m2rest tc tcs ⟨""⟩
    hc htc hname (by rw [hraw]; exact hdec) hc2
  refine ⟨hdec, ?_, ?_⟩ <;> rw [h]

/-- C7: every non-200 status becomes a structured `APIError` carrying
the code and raw body; the message classification is total (every
unlisted code gets the unknown-case message) and 429 and 500 map to
distinct messages. -/
theorem apiError_classification (status : Int) (body : String) (h : status ≠ 200) :
    callStatusResult status body = some { statusCode := status, body := body } ∧
    (∀ e : APIError, e.statusCode ∉ ([400, 401, 402, 422, 429, 500, 503] : List Int) →
      e.UserMessage = unknownErrMsg) ∧
    (APIError.mk 429 "").UserMessage ≠ (APIError.mk 500 "").UserMessage := by
  refine ⟨by simp [callStatusResult, h], ?_, ?_⟩
  · intro e he
    simp only [List.mem_cons, List.not_mem_nil, or_false, not_or] at he
    obtain ⟨h400, h401, h402, h422, h429, h500, h503⟩ := he
    simp only [APIError.UserMessage, if_neg h400, if_neg h401, if_neg h402, if_neg h422,
      if_neg h429, if_neg h500, if_neg h503]
  · decide

/-! ## Closed witnesses for the orchestrator claims -/

/-- A tool-call proposal with well-formed arguments. -/
def tcW : ToolCall :=
  { id := "call-1", type := "function",
    function := { name := "search_internet", arguments := "\x7b\"query\":\"x\"\x7d" } }

/-- A tool-call proposal with malformed arguments. -/
def tcBadW : ToolCall :=
  { id := "call-2", type := "function",
    function := { name := "search_internet", arguments := "not-json" } }

/-- A tool-call proposal whose arguments are an empty JSON object. -/
def tcEmptyW : ToolCall :=
  { id := "call-3", type := "function",
    function := { name := "search_internet", arguments := "\x7b\x7d" } }

/-- A first-phase assistant message proposing the given tool call. -/
def proposalW (tc : ToolCall) : Message :=
  { role := "assistant", content := "first", toolCalls := [tc], toolCallID := "" }

/-- A plain assistant reply with no tool calls. -/
def finalW : Message :=
  { role := "assistant", content := "final", toolCalls := [], toolCallID := "" }

/-- An executor that succeeds. -/
def fnOkW : String → String × Option String := fun _ => ("result", none)

/-- An executor that fails but returns fallback text. -/
def fnErrW : String → String × Option String := fun _ => ("fallback text", some "boom")

/-- Closed witness for `Complete_two_phase`. -/
theorem Complete_two_phase_witness :
    Complete [] [] (some fnOkW) (Except.ok ⟨[proposalW tcW]⟩) (Except.ok ⟨[finalW]⟩) =
      (Except.ok { reply := finalW.content, webSearchUsed := true,
                   webSearchError := (fnOkW (SearchArgs.mk "x").query).2,
                   webSearchQuery := (SearchArgs.mk "x").query },
       [ { messages := [], tools := [] },
         { messages := [] ++
             [ { role := "assistant", content := "", toolCalls := (proposalW tcW).toolCalls,
                 toolCallID := "" },
               { role := "tool", content := (fnOkW (SearchArgs.mk "x").query).1,
                 toolCalls := [], toolCallID := tcW.id } ],
           tools := [] } ],
       [(SearchArgs.mk "x").query]) :=
  Complete_two_phase [] [] fnOkW ⟨[proposalW tcW]⟩ ⟨[finalW]⟩ (proposalW tcW) finalW [] []
    tcW [] ⟨"x"⟩ rfl rfl rfl (by rfl) rfl

/-- Closed witness for `Complete_executor_error`. -/
theorem Complete_executor_error_witness :
    (Complete [] [] (some fnErrW) (Except.ok ⟨[proposalW tcW]⟩) (Except.ok ⟨[finalW]⟩)).1 =
      Except.ok { reply := finalW.content, webSearchUsed := true,
                  webSearchError := some "boom",
                  webSearchQuery := (SearchArgs.mk "x").query } ∧
    (Complete [] [] (some fnErrW) (Except.ok ⟨[proposalW tcW]⟩)
      (Except.ok ⟨[finalW]⟩)).2.1.length = 2 :=
  Complete_executor_error [] [] fnErrW ⟨[proposalW tcW]⟩ ⟨[finalW]⟩ (proposalW tcW) finalW
    [] [] tcW [] ⟨"x"⟩ "fallback text" "boom" rfl rfl rfl (by rfl) rfl rfl

/-- Closed witness for `Complete_no_tool`: executor absent. -/
theorem Complete_no_tool_witness :
    Complete [] [] none (Except.ok ⟨[finalW]⟩) (Except.ok ⟨[]⟩) =
      (Except.ok { reply := finalW.content, webSearchUsed := false,
                   webSearchError := none, webSearchQuery := "" },
       [{ messages := [], tools := [] }], []) :=
  Complete_no_tool [] [] none (Except.ok ⟨[finalW]⟩) (Except.ok ⟨[]⟩) ⟨[finalW]⟩ finalW []
    rfl rfl (Or.inr (Or.inr rfl))

/-- Closed witness for `Complete_args_abort`. -/
theorem Complete_args_abort_witness :
    Complete [] [] (some fnOkW) (Except.ok ⟨[proposalW tcBadW]⟩) (Except.ok ⟨[finalW]⟩) =
      (Except.error (CompleteError.invalidToolArgs
        "invalid character or unexpected end of JSON input"),
       [{ messages := [], tools := [] }], []) :=
  Complete_args_abort [] [] fnOkW (Except.ok ⟨[finalW]⟩) ⟨[proposalW tcBadW]⟩
    (proposalW tcBadW) [] tcBadW [] "invalid character or unexpected end of JSON input"
    rfl rfl rfl (by rfl)

/-- Closed witness for `Complete_missing_query_field`. -/
theorem Complete_missing_query_field_witness :
    unmarshalSearchArgs "\x7b\x7d" = Except.ok { query := "" } ∧
    (Complete [] [] (some fnOkW) (Except.ok ⟨[proposalW tcEmptyW]⟩)
      (Except.ok ⟨[finalW]⟩)).2.2 = [""] ∧
    (Complete [] [] (some fnOkW) (Except.ok ⟨[proposalW tcEmptyW]⟩)
      (Except.ok ⟨[finalW]⟩)).1 =
      Except.ok { reply := finalW.content, webSearchUsed := true,
                  webSearchError := (fnOkW "").2, webSearchQuery := "" } :=
  Complete_missing_query_field [] [] fnOkW ⟨[proposalW tcEmptyW]⟩ ⟨[finalW]⟩
    (proposalW tcEmptyW) finalW [] [] tcEmptyW [] rfl rfl rfl rfl rfl

/-- Closed witness for `apiError_classification`. -/
theorem apiError_classification_witness :
    callStatusResult 429 "rate limited" =
      some { statusCode := 429, body := "rate limited" } ∧
    (∀ e : APIError, e.statusCode ∉ ([400, 401, 402, 422, 429, 500, 503] : List Int) →
      e.UserMessage = unknownErrMsg) ∧
    (APIError.mk 429 "").UserMessage ≠ (APIError.mk 500 "").UserMessage :=
  apiError_classification 429 "rate limited" (by decide)

end OtomAI
